import Mathlib

/-!
# Verification of the Arrow-theorem first-order encoding (`main.py`)

The program builds one first-order formula over the integers from:

* two uninterpreted relations `p : ℤ⁴ → Bool` (individual strict preference)
  and `w : ℤ³ → Bool` (social welfare), one uninterpreted function
  `swap : ℤ⁴ → ℤ` (preference-swap transition);
* six closed sentences (`get_linearity`, `individual_prefs`, `get_unanimity`,
  `get_nondictatorship`, `get_iia`, `get_swap_condition`);
* ground seed facts (`introduce_constants`);

and checks the conjunction for satisfiability.

This file embeds the program twice:

* a shallow, semantic embedding: each sentence becomes a `Prop` parameterised
  by an interpretation of `p`, `w` and `swap` over `ℤ` (a model of a sentence
  is an interpretation making the `Prop` true);
* a deep, syntactic embedding (`namespace Ast`): the formula trees the
  builders construct, used to reason about variable binding.

Translation conventions, matching the z3 API used by the source:
`And`/`Or` on booleans become `∧`/`∨` (the variadic `And(a, b, c)` is
right-nested, and the empty conjunction `And()` is `True`), `Not` becomes
`¬`, `Implies` becomes `→`, `==` on integer terms becomes `=` on `ℤ`,
`==` on boolean terms becomes `↔`, and `ForAll`/`Exists` with a list of
variables become nested `∀`/`∃` over `ℤ` in list order.
-/

/-! ## Shallow embedding of the axiom builders -/

/-- Sentence built by `get_linearity`: totality for `p` and `w`,
irreflexivity for both, and transitivity for both, with one quantifier
block `ForAll([x, a, b, s, c], ...)`. -/
def get_linearity (p : ℤ → ℤ → ℤ → ℤ → Prop) (w : ℤ → ℤ → ℤ → Prop) : Prop :=
  ∀ x a b s c : ℤ,
    (p x a b s ∨ p x b a s ∨ a = b) ∧
    ((¬ p x a a s) ∧ (¬ w a a s)) ∧
    (w a b s ∨ w b a s ∨ a = b) ∧
    ((p x a b s ∧ p x b c s) → p x a c s) ∧
    ((w a b s ∧ w b c s) → w a c s)

/-- Sentence built by `individual_prefs`: if the whole profile of `p`
agrees between states `s1` and `s2` then `w` agrees between them. -/
def individual_prefs (p : ℤ → ℤ → ℤ → ℤ → Prop) (w : ℤ → ℤ → ℤ → Prop) : Prop :=
  ∀ s1 s2 : ℤ,
    (∀ x a b : ℤ, p x a b s1 ↔ p x a b s2) →
    (∀ a b : ℤ, w a b s1 ↔ w a b s2)

/-- Sentence built by `get_unanimity`: a pairwise ranking shared by every
agent is adopted by the social welfare relation. -/
def get_unanimity (p : ℤ → ℤ → ℤ → ℤ → Prop) (w : ℤ → ℤ → ℤ → Prop) : Prop :=
  ∀ a b s : ℤ, (∀ x : ℤ, p x a b s) → w a b s

/-- Sentence built by `get_nondictatorship`: no agent's individual order
coincides with the social order at every state and pair. -/
def get_nondictatorship (p : ℤ → ℤ → ℤ → ℤ → Prop) (w : ℤ → ℤ → ℤ → Prop) : Prop :=
  ¬ ∃ x : ℤ, ∀ s a b : ℤ, (p x a b s ↔ w a b s)

/-- Sentence built by `get_iia`: if every agent's ranking of the pair
`(a, b)` agrees between `s1` and `s2` then so does the social ranking. -/
def get_iia (p : ℤ → ℤ → ℤ → ℤ → Prop) (w : ℤ → ℤ → ℤ → Prop) : Prop :=
  ∀ a b s1 s2 : ℤ,
    (∀ x : ℤ, p x a b s1 ↔ p x a b s2) →
    (w a b s1 ↔ w a b s2)

/-! ## Shallow embedding of the swap-transition builder

The local boolean expressions of `get_swap_condition` are lifted to
named definitions so that theorems can refer to them individually. -/

/-- The `basic` conjunct of `get_swap_condition`:
`p(x, a, b, swap(x, a, b, s)) == p(x, b, a, s)`. -/
def basic (p : ℤ → ℤ → ℤ → ℤ → Prop) (swap : ℤ → ℤ → ℤ → ℤ → ℤ)
    (x a b s : ℤ) : Prop :=
  p x a b (swap x a b s) ↔ p x b a s

/-- The `swap_part` expression of `get_swap_condition`:
`p(x, a, b, swap(y, a1, b1, s)) == p(x, a, b, s)`. -/
def swap_part (p : ℤ → ℤ → ℤ → ℤ → Prop) (swap : ℤ → ℤ → ℤ → ℤ → ℤ)
    (x y a a1 b b1 s : ℤ) : Prop :=
  p x a b (swap y a1 b1 s) ↔ p x a b s

/-- The `neq_part` expression of `get_swap_condition`:
`Or(Not(x == y), And())`.  The empty conjunction `And()` is `True`. -/
def neq_part (x y : ℤ) : Prop :=
  (¬ x = y) ∨ True

/-- The `not_affecting` disjunct of `get_swap_condition`:
`And(swap_part, neq_part)`. -/
def not_affecting (p : ℤ → ℤ → ℤ → ℤ → Prop) (swap : ℤ → ℤ → ℤ → ℤ → ℤ)
    (x y a a1 b b1 s : ℤ) : Prop :=
  swap_part p swap x y a a1 b b1 s ∧ neq_part x y

/-- The `first_g` guard of `get_swap_condition`. -/
def first_g (p : ℤ → ℤ → ℤ → ℤ → Prop) (x y a a1 b b1 s : ℤ) : Prop :=
  x = y ∧ a = a1 ∧ b = b1 ∧ p x b a s

/-- The `second_g` guard of `get_swap_condition`. -/
def second_g (p : ℤ → ℤ → ℤ → ℤ → Prop) (x y a a1 b b1 s : ℤ) : Prop :=
  x = y ∧ a = a1 ∧ ¬ (b = b1) ∧ ¬ (b = a) ∧ p x b1 b s

/-- The `third_g` guard of `get_swap_condition`. -/
def third_g (p : ℤ → ℤ → ℤ → ℤ → Prop) (x y a a1 b b1 s : ℤ) : Prop :=
  x = y ∧ b = b1 ∧ ¬ (a = a1) ∧ ¬ (b = a) ∧ p x a a1 s

/-- Sentence built by `get_swap_condition`:
`ForAll([x, y, a, a1, b, b1, s], And(basic, Or(not_affecting, first_g, second_g, third_g)))`. -/
def get_swap_condition (p : ℤ → ℤ → ℤ → ℤ → Prop) (swap : ℤ → ℤ → ℤ → ℤ → ℤ) : Prop :=
  ∀ x y a a1 b b1 s : ℤ,
    basic p swap x a b s ∧
    (not_affecting p swap x y a a1 b b1 s ∨ first_g p x y a a1 b b1 s ∨
      second_g p x y a a1 b b1 s ∨ third_g p x y a a1 b b1 s)

/-! ## Shallow embedding of the seed-state generator

`introduce_constants` iterates with two nested `for` loops over the single
iterator object returned by `itertools.permutations([1, 2, 3])`.  A Python
iterator can be traversed only once: the outer loop draws its first element
`(1, 2, 3)`, the inner loop then drains the five remaining elements, and on
its second step the outer loop finds the shared iterator exhausted and
stops.  `perm_pairs` reproduces exactly this traversal: it is handed the
stream of elements the iterator would yield, pairs the first element with
each of the remaining ones, and then continues the outer loop on the
now-empty stream. -/

/-- The elements yielded by `itertools.permutations([1, 2, 3])`, in
lexicographic order. -/
def permutations : List (ℤ × ℤ × ℤ) :=
  [(1, 2, 3), (1, 3, 2), (2, 1, 3), (2, 3, 1), (3, 1, 2), (3, 2, 1)]

/-- One run of the outer `for` loop body of `introduce_constants` on the
shared iterator: draw `first_perm`, let the inner loop drain the rest of
the iterator, then resume the outer loop on the now-empty iterator.  The
`fuel` argument only bounds the number of outer iterations so that the
recursion is structural; it never runs out, since every outer iteration
consumes at least one element of the stream. -/
def outer_loop : ℕ → List (ℤ × ℤ × ℤ) → List ((ℤ × ℤ × ℤ) × (ℤ × ℤ × ℤ))
  | _, [] => []
  | 0, _ :: _ => []
  | fuel + 1, first_perm :: rest =>
      rest.map (fun second_perm => (first_perm, second_perm)) ++ outer_loop fuel []

/-- The `(first_perm, second_perm)` pairs visited by the two nested loops
of `introduce_constants`, which share one iterator (see above). -/
def perm_pairs (it : List (ℤ × ℤ × ℤ)) : List ((ℤ × ℤ × ℤ) × (ℤ × ℤ × ℤ)) :=
  outer_loop it.length it

/-- The list `constant_conditions` built by `introduce_constants`: for the
`i`-th visited pair of permutations (0-based), `curr_state = i + 1`, and the
condition asserts the three pairwise `p` facts of `first_perm` for agent 1
and the three pairwise `p` facts of `second_perm` for agent 2. -/
def constant_conditions (p : ℤ → ℤ → ℤ → ℤ → Prop) : List Prop :=
  (perm_pairs permutations).enum.map (fun pr =>
    ((p 1 pr.2.1.1 pr.2.1.2.1 ((pr.1 : ℤ) + 1) ∧
      p 1 pr.2.1.1 pr.2.1.2.2 ((pr.1 : ℤ) + 1) ∧
      p 1 pr.2.1.2.1 pr.2.1.2.2 ((pr.1 : ℤ) + 1)) ∧
     (p 2 pr.2.2.1 pr.2.2.2.1 ((pr.1 : ℤ) + 1) ∧
      p 2 pr.2.2.1 pr.2.2.2.2 ((pr.1 : ℤ) + 1) ∧
      p 2 pr.2.2.2.1 pr.2.2.2.2 ((pr.1 : ℤ) + 1))))

/-- Conjunction `And(constant_conditions)` returned by `introduce_constants`. -/
def introduce_constants (p : ℤ → ℤ → ℤ → ℤ → Prop) : Prop :=
  (constant_conditions p).foldr And True

/-! ## The formula submitted to the solver -/

/-- The `main_sentence` of `main()`: the conjunction
`And(linearity, ind, unanimity, nondictatorship, iia, swap_cond, constants)`. -/
def main_sentence (p : ℤ → ℤ → ℤ → ℤ → Prop) (w : ℤ → ℤ → ℤ → Prop)
    (swap : ℤ → ℤ → ℤ → ℤ → ℤ) : Prop :=
  get_linearity p w ∧ individual_prefs p w ∧ get_unanimity p w ∧
    get_nondictatorship p w ∧ get_iia p w ∧ get_swap_condition p swap ∧
    introduce_constants p

/-- The same conjunction with only the non-dictatorship sentence removed. -/
def main_sentence_without_nondictatorship (p : ℤ → ℤ → ℤ → ℤ → Prop)
    (w : ℤ → ℤ → ℤ → Prop) (swap : ℤ → ℤ → ℤ → ℤ → ℤ) : Prop :=
  get_linearity p w ∧ individual_prefs p w ∧ get_unanimity p w ∧
    get_iia p w ∧ get_swap_condition p swap ∧ introduce_constants p

/-! ## Concrete interpretations used as models and countermodels -/

/-- The everywhere-false individual preference relation. -/
def Pfalse : ℤ → ℤ → ℤ → ℤ → Prop := fun _ _ _ _ => False

/-- The everywhere-false social welfare relation. -/
def Wfalse : ℤ → ℤ → ℤ → Prop := fun _ _ _ => False

/-- The swap interpretation that leaves the state unchanged. -/
def Swapid : ℤ → ℤ → ℤ → ℤ → ℤ := fun _ _ _ s => s

/-- Preference by the usual order on `ℤ`, for every agent and state. -/
def Plt : ℤ → ℤ → ℤ → ℤ → Prop := fun _ a b _ => a < b

/-- Social welfare by the usual order on `ℤ`, for every state. -/
def Wlt : ℤ → ℤ → ℤ → Prop := fun a b _ => a < b

/-- A countermodel interpretation of `p`: agent `0` relates exactly the
unordered pair `{0, 1}` in state `0`, and nothing else holds anywhere. -/
def Pc : ℤ → ℤ → ℤ → ℤ → Prop :=
  fun x a b s => x = 0 ∧ s = 0 ∧ ((a = 0 ∧ b = 1) ∨ (a = 1 ∧ b = 0))

/-- A countermodel interpretation of `swap` with a single non-identity
transition: agent `0` swapping the degenerate pair `(0, 0)` in state `0`
moves to state `1`; every other call leaves the state unchanged. -/
def Swapc : ℤ → ℤ → ℤ → ℤ → ℤ :=
  fun y a1 b1 s => if y = 0 ∧ a1 = 0 ∧ b1 = 0 ∧ s = 0 then 1 else s

/-! ## Deep (syntactic) embedding of the sentence builders

The builders construct z3 abstract syntax trees from the module-level
integer variables `x`, `a`, `b`, `c`, `s`, `s1`, `s2` and the local
variables `y`, `a1`, `b1`.  To reason about variable binding we replay the
same construction on an explicit syntax tree.  `ForAll`/`Exists` keep
their list of bound variables; the variadic `And`/`Or` are right-nested
binary nodes with `tru` as the empty conjunction `And()`. -/

namespace Ast

/-- Integer-sorted z3 terms appearing in the program: variables, integer
literals and applications of the uninterpreted function `swap`. -/
inductive Term where
  | var : String → Term
  | int : ℤ → Term
  | swap : Term → Term → Term → Term → Term
deriving DecidableEq, Repr

/-- Boolean-sorted z3 expressions appearing in the program.  `patom` and
`watom` are applications of the uninterpreted relations `p` and `w`;
`eqI` is `==` on integer terms and `iffB` is `==` on boolean terms. -/
inductive Formula where
  | patom : Term → Term → Term → Term → Formula
  | watom : Term → Term → Term → Formula
  | eqI : Term → Term → Formula
  | iffB : Formula → Formula → Formula
  | tru : Formula
  | and : Formula → Formula → Formula
  | or : Formula → Formula → Formula
  | not : Formula → Formula
  | imp : Formula → Formula → Formula
  | all : List String → Formula → Formula
  | exi : List String → Formula → Formula
deriving DecidableEq, Repr

/-- Variables occurring in a term. -/
def Term.vars : Term → List String
  | .var v => [v]
  | .int _ => []
  | .swap t1 t2 t3 t4 => t1.vars ++ t2.vars ++ t3.vars ++ t4.vars

/-- Free variables of a formula: every occurrence of a variable that is
not in the scope of a `ForAll`/`Exists` binding it. -/
def Formula.freeVars : Formula → List String
  | .patom t1 t2 t3 t4 => t1.vars ++ t2.vars ++ t3.vars ++ t4.vars
  | .watom t1 t2 t3 => t1.vars ++ t2.vars ++ t3.vars
  | .eqI t1 t2 => t1.vars ++ t2.vars
  | .iffB f g => f.freeVars ++ g.freeVars
  | .tru => []
  | .and f g => f.freeVars ++ g.freeVars
  | .or f g => f.freeVars ++ g.freeVars
  | .not f => f.freeVars
  | .imp f g => f.freeVars ++ g.freeVars
  | .all vs f => f.freeVars.filter (fun v => ¬ vs.contains v)
  | .exi vs f => f.freeVars.filter (fun v => ¬ vs.contains v)

/-- Module-level variable `x = Int("x")`. -/
def x : Term := .var "x"

/-- Module-level variable `a = Int("a")`. -/
def a : Term := .var "a"

/-- Module-level variable `b = Int("b")`. -/
def b : Term := .var "b"

/-- Module-level variable `c = Int("c")`. -/
def c : Term := .var "c"

/-- Module-level variable `s = Int("s")`. -/
def s : Term := .var "s"

/-- Module-level variable `s1 = Int("s1")`. -/
def s1 : Term := .var "s1"

/-- Module-level variable `s2 = Int("s2")`. -/
def s2 : Term := .var "s2"

/-- Syntax tree built by `get_linearity`. -/
def get_linearity : Formula :=
  let first := .or (.patom x a b s) (.or (.patom x b a s) (.eqI a b))
  let second := .and (.not (.patom x a a s)) (.not (.watom a a s))
  let third := .or (.watom a b s) (.or (.watom b a s) (.eqI a b))
  let fourth := .imp (.and (.patom x a b s) (.patom x b c s)) (.patom x a c s)
  let fifth := .imp (.and (.watom a b s) (.watom b c s)) (.watom a c s)
  .all ["x", "a", "b", "s", "c"]
    (.and first (.and second (.and third (.and fourth fifth))))

/-- Syntax tree built by `individual_prefs`. -/
def individual_prefs : Formula :=
  let assumption := .all ["x", "a", "b"] (.iffB (.patom x a b s1) (.patom x a b s2))
  let result := .all ["a", "b"] (.iffB (.watom a b s1) (.watom a b s2))
  .all ["s1", "s2"] (.imp assumption result)

/-- Syntax tree built by `get_unanimity`. -/
def get_unanimity : Formula :=
  let assumption := .all ["x"] (.patom x a b s)
  .all ["a", "b", "s"] (.imp assumption (.watom a b s))

/-- Syntax tree built by `get_nondictatorship`. -/
def get_nondictatorship : Formula :=
  let condition := .iffB (.patom x a b s) (.watom a b s)
  .not (.exi ["x"] (.all ["s", "a", "b"] condition))

/-- Syntax tree built by `get_iia`. -/
def get_iia : Formula :=
  let assumption := .all ["x"] (.iffB (.patom x a b s1) (.patom x a b s2))
  .all ["a", "b", "s1", "s2"] (.imp assumption (.iffB (.watom a b s1) (.watom a b s2)))

/-- Syntax tree built by `get_swap_condition` (the locals `a1`, `b1`, `y`
are created inside the builder). -/
def get_swap_condition : Formula :=
  let basic := .iffB (.patom x a b (.swap x a b s)) (.patom x b a s)
  let a1 : Term := .var "a1"
  let b1 : Term := .var "b1"
  let y : Term := .var "y"
  let swap_part := .iffB (.patom x a b (.swap y a1 b1 s)) (.patom x a b s)
  let neq_part := .or (.not (.eqI x y)) .tru
  let not_affecting := .and swap_part neq_part
  let first_g := .and (.eqI x y) (.and (.eqI a a1) (.and (.eqI b b1) (.patom x b a s)))
  let second_g := .and (.eqI x y) (.and (.eqI a a1)
    (.and (.not (.eqI b b1)) (.and (.not (.eqI b a)) (.patom x b1 b s))))
  let third_g := .and (.eqI x y) (.and (.eqI b b1)
    (.and (.not (.eqI a a1)) (.and (.not (.eqI b a)) (.patom x a a1 s))))
  .all ["x", "y", "a", "a1", "b", "b1", "s"]
    (.and basic (.or not_affecting (.or first_g (.or second_g third_g))))

end Ast

/-! ## Helper lemmas -/

/-- In every model of the swap sentence alone, `p` is symmetric in its two
alternative arguments: instantiating the sentence at `y = x`, `a1 = a`,
`b1 = b` leaves only the `not_affecting` and `first_g` disjuncts, and both
force `p x b a s` from `p x a b s` via `basic`. -/
theorem swap_sym (p : ℤ → ℤ → ℤ → ℤ → Prop) (swap : ℤ → ℤ → ℤ → ℤ → ℤ)
    (h : get_swap_condition p swap) :
    ∀ x a b s : ℤ, p x a b s → p x b a s := by
  intro x a b s hab
  obtain ⟨hb, hd⟩ := h x x a a b b s
  rcases hd with hna | hfg | hsg | htg
  · exact hb.mp (hna.1.mpr hab)
  · exact hfg.2.2.2
  · exact absurd rfl hsg.2.2.1
  · exact absurd rfl htg.2.2.1

/-- The trivial interpretation (`p` everywhere false, `swap` the identity
on states) satisfies the swap sentence. -/
theorem swapcond_Pfalse_Swapid : get_swap_condition Pfalse Swapid :=
  fun _ _ _ _ _ _ _ => ⟨Iff.rfl, Or.inl ⟨Iff.rfl, Or.inr trivial⟩⟩

/-- Ranking all alternatives by the usual order of `ℤ` satisfies the
linearity sentence. -/
theorem linearity_Plt_Wlt : get_linearity Plt Wlt := by
  intro x a b s c
  refine ⟨?_, ⟨?_, ?_⟩, ?_, ?_, ?_⟩ <;> simp [Plt, Wlt] <;> omega

/-- The everywhere-false welfare relation satisfies the IIA sentence. -/
theorem iia_Pfalse_Wfalse : get_iia Pfalse Wfalse :=
  fun _ _ _ _ _ => Iff.rfl

/-- The countermodel `(Pc, Swapc)` satisfies the swap sentence: away from
the unique nontrivial transition both sides of `swap_part` coincide, and
across that transition the only two orientations of `p` that change value,
`(0, 1)` and `(1, 0)` for agent `0`, are covered by the guards `second_g`
and `third_g` respectively (both applicable because the swapped pair is
the degenerate `(0, 0)`). -/
theorem swapcond_Pc_Swapc : get_swap_condition Pc Swapc := by
  intro x y a a1 b b1 s
  constructor
  · show Pc x a b (Swapc x a b s) ↔ Pc x b a s
    by_cases hc : x = 0 ∧ a = 0 ∧ b = 0 ∧ s = 0
    · have h1 : Swapc x a b s = 1 := if_pos hc
      rw [h1]
      obtain ⟨hx, ha, hb, hs⟩ := hc
      subst hx; subst ha; subst hb; subst hs
      simp [Pc]
    · have h1 : Swapc x a b s = s := if_neg hc
      rw [h1]
      unfold Pc
      tauto
  · by_cases hc : y = 0 ∧ a1 = 0 ∧ b1 = 0 ∧ s = 0
    · have h1 : Swapc y a1 b1 s = 1 := if_pos hc
      obtain ⟨hy, ha1, hb1, hs⟩ := hc
      subst hy; subst ha1; subst hb1; subst hs
      by_cases hp : Pc x a b 0
      · obtain ⟨hx, -, hab⟩ := hp
        subst hx
        rcases hab with ⟨ha, hb⟩ | ⟨ha, hb⟩
        · subst ha; subst hb
          right; right; left
          exact ⟨rfl, rfl, by norm_num, by norm_num, by simp [Pc]⟩
        · subst ha; subst hb
          right; right; right
          exact ⟨rfl, rfl, by norm_num, by norm_num, by simp [Pc]⟩
      · left
        refine ⟨?_, Or.inr trivial⟩
        show Pc x a b (Swapc 0 0 0 0) ↔ Pc x a b 0
        rw [h1]
        exact ⟨fun hcontr => absurd hcontr.2.1 (by norm_num), fun h0 => absurd h0 hp⟩
    · have h1 : Swapc y a1 b1 s = s := if_neg hc
      left
      refine ⟨?_, Or.inr trivial⟩
      show Pc x a b (Swapc y a1 b1 s) ↔ Pc x a b s
      rw [h1]

/-- The first seed state asserts `p(1, 1, 2, 1)`. -/
theorem introduce_constants_state1 (p : ℤ → ℤ → ℤ → ℤ → Prop)
    (h : introduce_constants p) : p 1 1 2 1 :=
  h.1.1.1

/-- The swap sentence contradicts linearity on any interpretation with a
single nontrivial preference: at `x = y`, `a = a1`, `b = b1` the guards
`second_g` and `third_g` are unsatisfiable, `first_g` demands the inverse
preference `p x b a s` (refuted by antisymmetry), and `not_affecting`
together with `basic` forces `p x a b s ↔ p x b a s`, again refuted. -/
theorem swap_linearity_clash (p : ℤ → ℤ → ℤ → ℤ → Prop) (w : ℤ → ℤ → ℤ → Prop)
    (swap : ℤ → ℤ → ℤ → ℤ → ℤ) (hlin : get_linearity p w)
    (hsw : get_swap_condition p swap) (h12 : p 1 1 2 1) : False := by
  have hirr : ¬ p 1 1 1 1 := (hlin 1 1 2 1 1).2.1.1
  have htr := (hlin 1 1 2 1 1).2.2.2.1
  have h21 : ¬ p 1 2 1 1 := fun hh => hirr (htr ⟨h12, hh⟩)
  obtain ⟨hb, hd⟩ := hsw 1 1 1 1 2 2 1
  rcases hd with hna | hfg | hsg | htg
  · exact h21 (hb.mp (hna.1.mpr h12))
  · exact h21 hfg.2.2.2
  · exact hsg.2.2.1 rfl
  · exact htg.2.2.1 rfl

/-! ## Claim theorems -/

/-- C1: the seed-state generator is claimed to produce 36 states, one per
ordered pair of permutations of `{1, 2, 3}`.  Because the two nested loops
share a single `itertools.permutations` iterator, the code actually visits
only 5 pairs, all with agent 1's permutation fixed to `(1, 2, 3)`, and so
produces 5 states (each still with exactly 3 ground `p` facts per agent). -/
theorem introduce_constants_five_states :
    perm_pairs permutations =
      [((1, 2, 3), (1, 3, 2)), ((1, 2, 3), (2, 1, 3)), ((1, 2, 3), (2, 3, 1)),
       ((1, 2, 3), (3, 1, 2)), ((1, 2, 3), (3, 2, 1))] ∧
    (perm_pairs permutations).length = 5 ∧
    ∀ p : ℤ → ℤ → ℤ → ℤ → Prop, (constant_conditions p).length = 5 :=
  ⟨by decide, by decide, fun _ => rfl⟩

/-- C2: the formula submitted to the solver — the conjunction of the six
sentences and the seed facts actually generated — is unsatisfiable over
the integer domain.  (The contradiction already lives in linearity, the
swap sentence and the seed fact `p(1, 1, 2, 1)`.) -/
theorem main_sentence_unsat :
    ∀ (p : ℤ → ℤ → ℤ → ℤ → Prop) (w : ℤ → ℤ → ℤ → Prop) (swap : ℤ → ℤ → ℤ → ℤ → ℤ),
    main_sentence p w swap ↔ False := by
  intro p w swap
  constructor
  · rintro ⟨hlin, -, -, -, -, hsw, hc⟩
    exact swap_linearity_clash p w swap hlin hsw (introduce_constants_state1 p hc)
  · exact fun h => h.elim

/-- C3 (code evaluation): contrary to the claim, removing the
non-dictatorship sentence does not make the conjunction satisfiable: the
remaining sentences are still unsatisfiable over the integer domain,
because linearity, the swap sentence and the seed fact `p(1, 1, 2, 1)`
are already jointly contradictory. -/
theorem main_sentence_without_nondictatorship_unsat :
    ∀ (p : ℤ → ℤ → ℤ → ℤ → Prop) (w : ℤ → ℤ → ℤ → Prop) (swap : ℤ → ℤ → ℤ → ℤ → ℤ),
    main_sentence_without_nondictatorship p w swap ↔ False := by
  intro p w swap
  constructor
  · rintro ⟨hlin, -, -, -, hsw, hc⟩
    exact swap_linearity_clash p w swap hlin hsw (introduce_constants_state1 p hc)
  · exact fun h => h.elim

/-- C4 (counterexample): the frame claim fails as stated.  In the model
`(Pc, Swapc)` of the swap sentence, the queried triple `(x, a, b) = (0, 0, 1)`
differs from the swapped triple `(y, a1, b1) = (0, 0, 0)` — the pairs
`(a, b)` and `(a1, b1)` differ — yet
`p(0, 0, 1, swap(0, 0, 0, 0))` and `p(0, 0, 1, 0)` disagree. -/
theorem frame_claim_counterexample :
    get_swap_condition Pc Swapc ∧
    ((0 : ℤ) ≠ 0 ∨ ¬ ((0 : ℤ) = 0 ∧ (1 : ℤ) = 0)) ∧
    ¬ (Pc 0 0 1 (Swapc 0 0 0 0) ↔ Pc 0 0 1 0) :=
  ⟨swapcond_Pc_Swapc, by norm_num, by unfold Pc Swapc; decide⟩

/-- C4 (amended): in every model of the swap sentence, the frame
equivalence `p(x, a, b, swap(y, a1, b1, s)) ↔ p(x, a, b, s)` holds
whenever the agents differ, or the swapped pair is a genuine pair
(`a1 ≠ b1`) different from the queried pair.  (The counterexample above
forces the extra `a1 ≠ b1` proviso: a degenerate swap of a pair `(t, t)`
may disturb other pairs of the acting agent.) -/
theorem frame_condition_amended :
    ∀ (p : ℤ → ℤ → ℤ → ℤ → Prop) (swap : ℤ → ℤ → ℤ → ℤ → ℤ),
    get_swap_condition p swap →
    ∀ x y a a1 b b1 s : ℤ, (x ≠ y ∨ (a1 ≠ b1 ∧ ¬ (a = a1 ∧ b = b1))) →
    (p x a b (swap y a1 b1 s) ↔ p x a b s) := by
  intro p swap hsw x y a a1 b b1 s hcond
  have hsym : ∀ u v v' t, p u v v' t ↔ p u v' v t :=
    fun u v v' t => ⟨swap_sym p swap hsw u v v' t, swap_sym p swap hsw u v' v t⟩
  obtain ⟨-, hd⟩ := hsw x y a a1 b b1 s
  rcases hd with h | h | h | h
  · exact h.1
  · obtain ⟨hxy, haa, hbb, -⟩ := h
    rcases hcond with hc | ⟨-, hc⟩
    · exact absurd hxy hc
    · exact absurd ⟨haa, hbb⟩ hc
  · obtain ⟨hxy, haa1, hbb1, hba, -⟩ := h
    have ha1b1 : a1 ≠ b1 := by
      rcases hcond with hc | ⟨hc, -⟩
      · exact absurd hxy hc
      · exact hc
    obtain ⟨-, hd2⟩ := hsw x y b a1 a b1 s
    rcases hd2 with h2 | h2 | h2 | h2
    · exact (hsym x a b (swap y a1 b1 s)).trans (h2.1.trans (hsym x b a s))
    · exact absurd (h2.2.1.trans haa1.symm) hba
    · exact absurd (h2.2.1.trans haa1.symm) hba
    · exact absurd (haa1.symm.trans h2.2.1) ha1b1
  · obtain ⟨hxy, hbb1, hna, hba, -⟩ := h
    have ha1b1 : a1 ≠ b1 := by
      rcases hcond with hc | ⟨hc, -⟩
      · exact absurd hxy hc
      · exact hc
    obtain ⟨-, hd2⟩ := hsw x y b a1 a b1 s
    rcases hd2 with h2 | h2 | h2 | h2
    · exact (hsym x a b (swap y a1 b1 s)).trans (h2.1.trans (hsym x b a s))
    · exact absurd (h2.2.1.symm.trans hbb1) ha1b1
    · exact absurd (h2.2.1.symm.trans hbb1) ha1b1
    · exact absurd (h2.2.1.trans hbb1.symm).symm hba

/-- Witness for the amended C4 theorem at the trivial model and the tuple
`(x, y, a, a1, b, b1, s) = (0, 1, 2, 3, 4, 5, 6)`. -/
theorem frame_condition_amended_witness :
    get_swap_condition Pfalse Swapid ∧
    ((0 : ℤ) ≠ 1 ∨ ((3 : ℤ) ≠ 5 ∧ ¬ ((2 : ℤ) = 3 ∧ (4 : ℤ) = 5))) ∧
    (Pfalse 0 2 4 (Swapid 1 3 5 6) ↔ Pfalse 0 2 4 6) :=
  ⟨swapcond_Pfalse_Swapid, by norm_num,
   frame_condition_amended Pfalse Swapid swapcond_Pfalse_Swapid 0 1 2 3 4 5 6
     (by norm_num)⟩

/-- C5: the agent-inequality guard `Or(Not(x == y), And())` of the frame
disjunct is a tautology — `And()` is the empty conjunction, i.e. true — so
`not_affecting` is logically equivalent to the bare `swap_part`
equivalence, with no `x ≠ y` or pair-disjointness restriction. -/
theorem neq_part_tautology :
    (∀ x y : ℤ, neq_part x y ↔ True) ∧
    (∀ (p : ℤ → ℤ → ℤ → ℤ → Prop) (swap : ℤ → ℤ → ℤ → ℤ → ℤ) (x y a a1 b b1 s : ℤ),
      not_affecting p swap x y a a1 b b1 s ↔ swap_part p swap x y a a1 b b1 s) :=
  ⟨fun _ _ => iff_true_intro (Or.inr trivial),
   fun _ _ _ _ _ _ _ _ _ => ⟨fun h => h.1, fun h => ⟨h, Or.inr trivial⟩⟩⟩

/-- C6: every model of the swap sentence satisfies the basic effect
`p(x, a, b, swap(x, a, b, s)) ↔ p(x, b, a, s)` unconditionally — `basic`
is a conjunct of the quantified body, independent of the guard disjuncts. -/
theorem swap_basic_effect :
    ∀ (p : ℤ → ℤ → ℤ → ℤ → Prop) (swap : ℤ → ℤ → ℤ → ℤ → ℤ),
    get_swap_condition p swap →
    ∀ x a b s : ℤ, (p x a b (swap x a b s) ↔ p x b a s) :=
  fun _ _ h x a b s => (h x x a a b b s).1

/-- Witness for C6 at the trivial model and `(x, a, b, s) = (0, 1, 2, 3)`. -/
theorem swap_basic_effect_witness :
    get_swap_condition Pfalse Swapid ∧
    (Pfalse 0 1 2 (Swapid 0 1 2 3) ↔ Pfalse 0 2 1 3) :=
  ⟨swapcond_Pfalse_Swapid, swap_basic_effect Pfalse Swapid swapcond_Pfalse_Swapid 0 1 2 3⟩

/-- C7: every model of the swap sentence satisfies the double-inversion
identity `p(x, b, a, swap(x, a, b, swap(x, a, b, s))) ↔ p(x, b, a, s)`,
by applying `basic` at `s` and at `swap(x, a, b, s)` together with the
symmetry of `p` that the sentence forces. -/
theorem swap_double_inversion :
    ∀ (p : ℤ → ℤ → ℤ → ℤ → Prop) (swap : ℤ → ℤ → ℤ → ℤ → ℤ),
    get_swap_condition p swap →
    ∀ x a b s : ℤ, (p x b a (swap x a b (swap x a b s)) ↔ p x b a s) := by
  intro p swap h x a b s
  have hsym : ∀ u v v' t, p u v v' t ↔ p u v' v t :=
    fun u v v' t => ⟨swap_sym p swap h u v v' t, swap_sym p swap h u v' v t⟩
  have hb1 := (h x x a a b b s).1
  have hb2 := (h x x a a b b (swap x a b s)).1
  exact (hsym x b a (swap x a b (swap x a b s))).trans
    (hb2.trans ((hsym x b a (swap x a b s)).trans hb1))

/-- Witness for C7 at the trivial model and `(x, a, b, s) = (0, 1, 2, 3)`. -/
theorem swap_double_inversion_witness :
    get_swap_condition Pfalse Swapid ∧
    (Pfalse 0 2 1 (Swapid 0 1 2 (Swapid 0 1 2 3)) ↔ Pfalse 0 2 1 3) :=
  ⟨swapcond_Pfalse_Swapid,
   swap_double_inversion Pfalse Swapid swapcond_Pfalse_Swapid 0 1 2 3⟩

/-- C8: every model of the linearity sentence makes `p` antisymmetric per
agent and state and `w` antisymmetric per state (if both orientations
held, transitivity at `c = a` would contradict irreflexivity), and — with
the totality, irreflexivity and transitivity conjuncts of the sentence
itself — `p` and `w` are strict total orders. -/
theorem linearity_strict_total_order :
    ∀ (p : ℤ → ℤ → ℤ → ℤ → Prop) (w : ℤ → ℤ → ℤ → Prop),
    get_linearity p w →
    ∀ x s a b c : ℤ,
      ¬ (p x a b s ∧ p x b a s) ∧ ¬ (w a b s ∧ w b a s) ∧
      ¬ p x a a s ∧ ¬ w a a s ∧
      (a ≠ b → p x a b s ∨ p x b a s) ∧ (a ≠ b → w a b s ∨ w b a s) ∧
      ((p x a b s ∧ p x b c s) → p x a c s) ∧ ((w a b s ∧ w b c s) → w a c s) := by
  intro p w h x s a b c
  obtain ⟨tot_p, ⟨irr_p, irr_w⟩, tot_w, tr_p, tr_w⟩ := h x a b s c
  have anti_p : ¬ (p x a b s ∧ p x b a s) := fun hh =>
    (h x a b s a).2.1.1 ((h x a b s a).2.2.2.1 hh)
  have anti_w : ¬ (w a b s ∧ w b a s) := fun hh =>
    (h x a b s a).2.1.2 ((h x a b s a).2.2.2.2 hh)
  refine ⟨anti_p, anti_w, irr_p, irr_w, ?_, ?_, tr_p, tr_w⟩
  · intro hne
    rcases tot_p with h1 | h1 | h1
    exacts [Or.inl h1, Or.inr h1, absurd h1 hne]
  · intro hne
    rcases tot_w with h1 | h1 | h1
    exacts [Or.inl h1, Or.inr h1, absurd h1 hne]

/-- Witness for C8 at the order model and `(x, s, a, b, c) = (7, 5, 1, 2, 3)`. -/
theorem linearity_strict_total_order_witness :
    get_linearity Plt Wlt ∧
    (¬ (Plt 7 1 2 5 ∧ Plt 7 2 1 5) ∧ ¬ (Wlt 1 2 5 ∧ Wlt 2 1 5) ∧
     ¬ Plt 7 1 1 5 ∧ ¬ Wlt 1 1 5 ∧
     ((1 : ℤ) ≠ 2 → Plt 7 1 2 5 ∨ Plt 7 2 1 5) ∧
     ((1 : ℤ) ≠ 2 → Wlt 1 2 5 ∨ Wlt 2 1 5) ∧
     ((Plt 7 1 2 5 ∧ Plt 7 2 3 5) → Plt 7 1 3 5) ∧
     ((Wlt 1 2 5 ∧ Wlt 2 3 5) → Wlt 1 3 5)) :=
  ⟨linearity_Plt_Wlt,
   linearity_strict_total_order Plt Wlt linearity_Plt_Wlt 7 5 1 2 3⟩

/-- C9: each of the six sentence builders returns a closed sentence —
the syntax tree it constructs has no free variables: every occurrence of
the module-level variables `x`, `a`, `b`, `c`, `s`, `s1`, `s2` and of the
locals `y`, `a1`, `b1` is within the scope of a quantifier binding it. -/
theorem builders_closed_sentences :
    Ast.get_linearity.freeVars = [] ∧ Ast.individual_prefs.freeVars = [] ∧
    Ast.get_unanimity.freeVars = [] ∧ Ast.get_nondictatorship.freeVars = [] ∧
    Ast.get_iia.freeVars = [] ∧ Ast.get_swap_condition.freeVars = [] :=
  ⟨rfl, rfl, rfl, rfl, rfl, rfl⟩

/-- C10: the independence-of-profile sentence is a logical consequence of
the IIA sentence — IIA instantiated at a pair `(a, b)` needs only the
agents' agreement on that pair, which profile-wide agreement supplies —
so the `individual_prefs` conjunct is redundant in the submitted formula. -/
theorem iia_entails_individual_prefs :
    ∀ (p : ℤ → ℤ → ℤ → ℤ → Prop) (w : ℤ → ℤ → ℤ → Prop),
    get_iia p w → individual_prefs p w :=
  fun _ _ h s1 s2 hag a b => h a b s1 s2 (fun x => hag x a b)

/-- Witness for C10 at the trivial model. -/
theorem iia_entails_individual_prefs_witness :
    get_iia Pfalse Wfalse ∧ individual_prefs Pfalse Wfalse :=
  ⟨iia_Pfalse_Wfalse, iia_entails_individual_prefs Pfalse Wfalse iia_Pfalse_Wfalse⟩
